import Mathlib

/-!
Shallow embedding of `alexa.go` from gagliardetto/alexa-skills-kit-golang.

Modelling conventions:
* Go pointers that may be `nil` become `Option`.
* Go `map[string]interface{}` session-attribute maps live on an explicit heap
  (`Store V`, a list of association lists indexed by `Ref`), so that map
  aliasing and in-place mutation through the shared `*Session` are observable.
  `V` is the (arbitrary) type of attribute values.
* The four `RequestHandler` callbacks receive the same data the Go code passes
  them (possibly-nil request/context pointers, the session, the response, the
  heap) and return the mutated session, response and heap, together with an
  optional error of an arbitrary type `E` (Go `error`).
* `time.Parse(time.RFC3339, ...)` and `time.Now()` are abstracted into a
  `parse : String → Option Int` function and a `now : Int` parameter, both in
  integer nanoseconds (the resolution of Go `time.Duration`); the float
  comparison `math.Abs(delta.Seconds()) > float64(timestampTolerance)` is
  rendered exactly as `|now - t| > tol * 1000000000`.
* A nil-pointer dereference performed by the Go code is modelled by the
  explicit outcome `Outcome.panicked`.
* `ProcessRequest` additionally returns the list of handler callbacks it
  invoked, in order (`AlexaEvent`), which only records what the Go code does
  at each `alexa.RequestHandler.OnXxx(...)` call site.
-/

set_option autoImplicit false

namespace AlexaSkillsKit

/-! ## Attribute maps and the heap of maps -/

/-- Go `map[string]interface{}` value, as an association list (unique keys). -/
abbrev AttrMap (V : Type) := List (String × V)

/-- Address of a map on the heap. -/
abbrev Ref := Nat

/-- The heap of attribute maps; a `Ref` is an index into the list. -/
abbrev Store (V : Type) := List (AttrMap V)

/-- Keys of an attribute map. -/
def AttrMap.keys {V : Type} (m : AttrMap V) : List String := m.map Prod.fst

/-- Whether the map currently binds key `k`. -/
def AttrMap.hasKey {V : Type} (m : AttrMap V) (k : String) : Bool := m.keys.contains k

/-- Go map assignment `m[k] = v`: update in place if the key exists, else append. -/
def AttrMap.insert {V : Type} (m : AttrMap V) (k : String) (v : V) : AttrMap V :=
  if m.hasKey k then m.map (fun p => if p.1 = k then (k, v) else p) else m ++ [(k, v)]

/-- Go map read `m[k]` (first binding wins; keys are unique in well-formed maps). -/
def AttrMap.lookup {V : Type} (m : AttrMap V) (k : String) : Option V :=
  (m.find? (fun p => p.1 == k)).map Prod.snd

/-- The loop `for n, v := range m { fresh[n] = v }` starting from a fresh empty map
(`alexa.go` lines 429-433). -/
def AttrMap.copy {V : Type} (m : AttrMap V) : AttrMap V :=
  m.foldl (fun acc p => acc.insert p.1 p.2) []

/-- A map is well formed (as every Go map is) when its keys are pairwise distinct. -/
def AttrMap.WF {V : Type} (m : AttrMap V) : Prop := m.keys.Nodup

/-- Allocate a fresh map on the heap (`make(map[string]interface{})`, populated
with the given entries); returns the new heap and the fresh address. -/
def allocMap {V : Type} (st : Store V) (m : AttrMap V) : Store V × Ref :=
  (st ++ [m], st.length)

/-- Read the map at address `r`. -/
def readMap {V : Type} (st : Store V) (r : Ref) : AttrMap V := st.getD r []

/-- Read through a possibly-nil map pointer; ranging over a nil Go map yields
no entries, hence the `[]`. -/
def readMapO {V : Type} (st : Store V) : Option Ref → AttrMap V
  | none => []
  | some r => readMap st r

/-- Every map on the heap is well formed. -/
def StoreWF {V : Type} (st : Store V) : Prop := ∀ m ∈ st, AttrMap.WF m

/-! ## Data model (`alexa.go` lines 91-361) -/

/-- `Session.Application` (line 103). -/
structure SessionApplication where
  applicationID : String := ""
deriving DecidableEq

/-- `Session.User` (line 107). -/
structure SessionUser where
  userID : String := ""
  accessToken : String := ""
deriving DecidableEq

/-- `Session` (lines 100-111); `attributes` is a possibly-nil pointer to a heap map. -/
structure Session where
  new : Bool := false
  sessionID : String := ""
  application : SessionApplication := {}
  attributes : Option Ref := none
  user : SessionUser := {}
deriving DecidableEq

/-- `IntentSlot.Resolutions` value entry (lines 269-272). -/
structure ResolutionValue where
  name : String := ""
  id : String := ""
deriving DecidableEq

/-- `EchoResolutionPerAuthority` (lines 264-273). -/
structure EchoResolutionPerAuthority where
  authority : String := ""
  statusCode : String := ""
  values : List (List (String × ResolutionValue)) := []
deriving DecidableEq

/-- `Resolutions` (lines 257-259). -/
structure Resolutions where
  resolutionsPerAuthority : List EchoResolutionPerAuthority := []
deriving DecidableEq

/-- `ConfirmationStatus` is a Go string type (line 243). -/
abbrev ConfirmationStatus := String

/-- `IntentSlot` (lines 235-240). -/
structure IntentSlot where
  name : String := ""
  confirmationStatus : ConfirmationStatus := ""
  value : String := ""
  resolutions : Option Resolutions := none
deriving DecidableEq

/-- `Intent` (lines 228-232); `slots` is a Go map, rendered as an association list. -/
structure Intent where
  name : String := ""
  confirmationStatus : ConfirmationStatus := ""
  slots : List (String × IntentSlot) := []
deriving DecidableEq

/-- `Request` (lines 161-170); `intent` is a value field, not a pointer. -/
structure Request where
  locale : String := ""
  timestamp : String := ""
  type : String := ""
  requestID : String := ""
  dialogState : String := ""
  intent : Intent := {}
  name : String := ""
  reason : String := ""
deriving DecidableEq

/-- `Context.System.Application` (line 137). -/
structure ContextApplication where
  applicationID : String := ""
deriving DecidableEq

/-- `Context.System.User` (line 140). -/
structure ContextUser where
  userID : String := ""
  accessToken : String := ""
deriving DecidableEq

/-- `Context.System.Device.SupportedInterfaces.Display` (line 149). -/
structure DisplayInterface where
  templateVersion : String := ""
  markupVersion : String := ""
deriving DecidableEq

/-- `Context.System.Device.SupportedInterfaces` (line 146); `AudioPlayer` is an
empty struct. -/
structure SupportedInterfaces where
  audioPlayer : Unit := ()
  display : DisplayInterface := {}
deriving DecidableEq

/-- `Context.System.Device` (line 144). -/
structure ContextDevice where
  deviceID : String := ""
  supportedInterfaces : SupportedInterfaces := {}
deriving DecidableEq

/-- `Context.System` (line 136). -/
structure ContextSystem where
  application : ContextApplication := {}
  user : ContextUser := {}
  device : ContextDevice := {}
  apiEndpoint : String := ""
  apiAccessToken : String := ""
deriving DecidableEq

/-- `Context.AudioPlayer` (line 126); `PlayerActivity` is a Go string type. -/
structure ContextAudioPlayer where
  token : String := ""
  offsetInMilliseconds : Int := 0
  playerActivity : String := ""
deriving DecidableEq

/-- `Context.Display` (line 132). -/
structure ContextDisplay where
  token : String := ""
deriving DecidableEq

/-- `Context` (lines 125-158). -/
structure Context where
  audioPlayer : ContextAudioPlayer := {}
  display : ContextDisplay := {}
  system : ContextSystem := {}
deriving DecidableEq

/-- `RequestEnvelope` (lines 92-97): `Session`, `Request` and `Context` are
pointers, hence `Option`. -/
structure RequestEnvelope where
  version : String := ""
  session : Option Session := none
  request : Option Request := none
  context : Option Context := none
deriving DecidableEq

/-- `OutputSpeech` (lines 292-297). -/
structure OutputSpeech where
  type : String := ""
  text : String := ""
  ssml : String := ""
  playBehavior : String := ""
deriving DecidableEq

/-- `Image` (lines 326-329). -/
structure Image where
  smallImageURL : String := ""
  largeImageURL : String := ""
deriving DecidableEq

/-- `Card` (lines 308-314); `CardType` is a Go string type. -/
structure Card where
  type : String := ""
  title : String := ""
  content : String := ""
  text : String := ""
  image : Option Image := none
deriving DecidableEq

/-- `Reprompt` (lines 332-334). -/
structure Reprompt where
  outputSpeech : Option OutputSpeech := none
deriving DecidableEq

/-- `Stream` (lines 349-353). -/
structure AudioStream where
  token : String := ""
  url : String := ""
  offsetInMilliseconds : Int := 0
deriving DecidableEq

/-- `AudioItem` (lines 344-346). -/
structure AudioItem where
  stream : AudioStream := {}
deriving DecidableEq

/-- `AudioPlayerDirective` (lines 337-341). -/
structure AudioPlayerDirective where
  type : String := ""
  playBehavior : String := ""
  audioItem : Option AudioItem := none
deriving DecidableEq

/-- `DialogDirective` (lines 356-361). -/
structure DialogDirective where
  type : String := ""
  slotToElicit : String := ""
  slotToConfirm : String := ""
  updatedIntent : Option Intent := none
deriving DecidableEq

/-- The `[]interface{}` directive list only ever receives these two concrete
types from this package (lines 507 and 518), so it is a closed sum here. -/
inductive Directive where
  | audioPlayer (d : AudioPlayerDirective)
  | dialog (d : DialogDirective)
deriving DecidableEq

/-- `Response` (lines 283-289); Go zero value has `shouldEndSession = false`. -/
structure Response where
  outputSpeech : Option OutputSpeech := none
  card : Option Card := none
  reprompt : Option Reprompt := none
  directives : List Directive := []
  shouldEndSession : Bool := false
deriving DecidableEq

/-- `ResponseEnvelope` (lines 276-280); `sessionAttributes` is a map pointer
into the heap, `response` a possibly-nil pointer. -/
structure ResponseEnvelope where
  version : String := ""
  sessionAttributes : Option Ref := none
  response : Option Response := none
deriving DecidableEq

/-! ## Constants (`alexa.go` lines 14-17) -/

/-- `sdkVersion` (line 14). -/
def sdkVersion : String := "1.0"

/-- `launchRequestName` (line 15). -/
def launchRequestName : String := "LaunchRequest"

/-- `intentRequestName` (line 16). -/
def intentRequestName : String := "IntentRequest"

/-- `sessionEndedRequestName` (line 17). -/
def sessionEndedRequestName : String := "SessionEndedRequest"

/-! ## Errors, outcomes, handlers -/

/-- The distinguishable error values `ProcessRequest` can return: the package
errors of `alexa.go` (`ErrRequestEnvelopeNil` line 72, the three
`verifyApplicationID` errors lines 531/534/537, the two `verifyTimestamp`
errors lines 552/558) plus pass-through of whatever error a handler callback
returns (`E`). -/
inductive AlexaError (E : Type) where
  | envelopeNil
  | appIDEmpty
  | requestAppIDEmpty
  | appIDMismatch
  | timestampParse (timestamp : String)
  | timestampTolerance
  | callback (e : E)
deriving DecidableEq

/-- Result of a fallible Go computation: a value, a returned `error`, or a
runtime panic (nil-pointer dereference). -/
inductive Outcome (E : Type) (α : Type) where
  | ok (a : α)
  | err (e : AlexaError E)
  | panicked
deriving DecidableEq

/-- True exactly on the three `verifyApplicationID` errors. -/
def AlexaError.isIdentityError {E : Type} : AlexaError E → Bool
  | .appIDEmpty => true
  | .requestAppIDEmpty => true
  | .appIDMismatch => true
  | _ => false

/-- True exactly on errors propagated from a handler callback. -/
def AlexaError.isCallbackError {E : Type} : AlexaError E → Bool
  | .callback _ => true
  | _ => false

/-- Whether the outcome is a failure with one of the application-identity errors. -/
def Outcome.failsIdentity {E α : Type} : Outcome E α → Bool
  | .err e => e.isIdentityError
  | _ => false

/-- Whether the outcome is a failure with the timestamp-tolerance error. -/
def Outcome.failsTolerance {E α : Type} : Outcome E α → Bool
  | .err .timestampTolerance => true
  | _ => false

/-- Whether the outcome carries a successfully built response envelope. -/
def Outcome.isOk {E α : Type} : Outcome E α → Bool
  | .ok _ => true
  | _ => false

/-- What a handler callback leaves behind: an optional returned error plus the
session, response and heap as mutated through the pointers it received. -/
structure CallbackOut (V E : Type) where
  err : Option E
  session : Session
  response : Response
  store : Store V

/-- A handler callback (Go
`func(context.Context, *Request, *Session, *Context, *Response) error`): it
receives the possibly-nil request and context pointers, the session, the
response and the heap. -/
abbrev Callback (V E : Type) :=
  Option Request → Session → Option Context → Response → Store V → CallbackOut V E

/-- `RequestHandler` (lines 84-89). -/
structure RequestHandler (V E : Type) where
  onSessionStarted : Callback V E
  onLaunch : Callback V E
  onIntent : Callback V E
  onSessionEnded : Callback V E

/-- `Alexa` (lines 75-80). -/
structure Alexa (V E : Type) where
  applicationID : String
  requestHandler : RequestHandler V E
  ignoreApplicationID : Bool := false
  ignoreTimestamp : Bool := false

/-- Which handler callback was invoked, recorded at the corresponding call
sites of `ProcessRequest` (lines 400, 409, 415, 421). -/
inductive AlexaEvent where
  | onSessionStarted
  | onLaunch
  | onIntent
  | onSessionEnded
deriving DecidableEq

/-- Everything observable about one `ProcessRequest` run: its return value,
the request envelope as mutated in place through its pointers, the final heap,
and the handler callbacks that were invoked, in order. -/
structure POut (V E : Type) where
  result : Outcome E ResponseEnvelope
  envOut : Option RequestEnvelope
  store : Store V
  events : List AlexaEvent

/-! ## Validation (`alexa.go` lines 521-562) -/

/-- `verifyApplicationID` (lines 523-541). Go reads
`request.Session.Application.ApplicationID` (line 529) before any emptiness
check, so a nil session panics first. -/
def Alexa.verifyApplicationID {V E : Type} (alexa : Alexa V E)
    (request : Option RequestEnvelope) : Outcome E Unit :=
  match request with
  | none => .err .envelopeNil
  | some env =>
    match env.session with
    | none => .panicked
    | some s =>
      if alexa.applicationID = "" then .err .appIDEmpty
      else if s.application.applicationID = "" then .err .requestAppIDEmpty
      else if alexa.applicationID ≠ s.application.applicationID then .err .appIDMismatch
      else .ok ()

/-- `verifyTimestamp` (lines 545-562). Go reads `request.Request.Timestamp`
(line 550), so a nil inner request panics; `time.Parse` failure yields the
parse error; otherwise the absolute difference to `now` (in nanoseconds) is
compared strictly against the tolerance (seconds, hence the `* 1000000000`). -/
def verifyTimestamp {E : Type} (request : Option RequestEnvelope)
    (parse : String → Option Int) (now tol : Int) : Outcome E Unit :=
  match request with
  | none => .err .envelopeNil
  | some env =>
    match env.request with
    | none => .panicked
    | some req =>
      match parse req.timestamp with
      | none => .err (.timestampParse req.timestamp)
      | some t =>
        if |now - t| > tol * 1000000000 then .err .timestampTolerance else .ok ()

/-- The application-identity step of `ProcessRequest` (lines 369-374):
skipped when `IgnoreApplicationID` is set. -/
def appCheck {V E : Type} (alexa : Alexa V E) (env : RequestEnvelope) : Outcome E Unit :=
  if alexa.ignoreApplicationID then .ok () else alexa.verifyApplicationID (some env)

/-- The timestamp step of `ProcessRequest` (lines 375-382): skipped when
`IgnoreTimestamp` is set. -/
def tsCheck {V E : Type} (alexa : Alexa V E) (env : RequestEnvelope)
    (parse : String → Option Int) (now tol : Int) : Outcome E Unit :=
  if alexa.ignoreTimestamp then .ok () else verifyTimestamp (some env) parse now tol

/-! ## Dispatch (`alexa.go` lines 384-436) -/

/-- Default response set up at lines 391-394: zero-valued `Response` with
`ShouldEndSession` forced to `true`. -/
def defaultResponse : Response := { shouldEndSession := true }

/-- Lazy initialization of the session attribute map (lines 386-388): if the
map pointer is nil, allocate a fresh empty map and point the session at it. -/
def initSessionStore {V : Type} (s : Session) (st : Store V) : Session × Store V :=
  match s.attributes with
  | none =>
    let a := allocMap st []
    ({ s with attributes := some a.2 }, a.1)
  | some _ => (s, st)

/-- Tail of `ProcessRequest` after a callback stage (lines 410-413 error
propagation pattern, then lines 428-435): on a callback error return it with
no response; otherwise allocate a fresh map, copy every session attribute into
it, and build the response envelope. -/
def Alexa.finishPhase {V E : Type} (_alexa : Alexa V E) (env : RequestEnvelope)
    (cbo : CallbackOut V E) (evs : List AlexaEvent) : POut V E :=
  match cbo.err with
  | some e =>
    ⟨.err (.callback e), some { env with session := some cbo.session }, cbo.store, evs⟩
  | none =>
    let a := allocMap cbo.store (AttrMap.copy (readMapO cbo.store cbo.session.attributes))
    ⟨.ok { version := sdkVersion, sessionAttributes := some a.2, response := some cbo.response },
     some { env with session := some cbo.session }, a.1, evs⟩

/-- The `switch requestEnv.Request.Type` dispatch (lines 407-426); reading
`.Type` through a nil request pointer panics. -/
def Alexa.dispatchPhase {V E : Type} (alexa : Alexa V E) (env : RequestEnvelope)
    (session2 : Session) (response2 : Response) (store2 : Store V)
    (evs : List AlexaEvent) : POut V E :=
  match env.request with
  | none => ⟨.panicked, some { env with session := some session2 }, store2, evs⟩
  | some req =>
    if req.type = launchRequestName then
      alexa.finishPhase env
        (alexa.requestHandler.onLaunch env.request session2 env.context response2 store2)
        (evs ++ [AlexaEvent.onLaunch])
    else if req.type = intentRequestName then
      alexa.finishPhase env
        (alexa.requestHandler.onIntent env.request session2 env.context response2 store2)
        (evs ++ [AlexaEvent.onIntent])
    else if req.type = sessionEndedRequestName then
      alexa.finishPhase env
        (alexa.requestHandler.onSessionEnded env.request session2 env.context response2 store2)
        (evs ++ [AlexaEvent.onSessionEnded])
    else
      alexa.finishPhase env ⟨none, session2, response2, store2⟩ evs

/-- Error handling for `OnSessionStarted` (lines 400-405): an error aborts the
request, otherwise dispatch continues with the mutated session/response/heap. -/
def Alexa.startFinish {V E : Type} (alexa : Alexa V E) (env : RequestEnvelope)
    (o : CallbackOut V E) : POut V E :=
  match o.err with
  | some e =>
    ⟨.err (.callback e), some { env with session := some o.session }, o.store,
     [AlexaEvent.onSessionStarted]⟩
  | none => alexa.dispatchPhase env o.session o.response o.store [AlexaEvent.onSessionStarted]

/-- The new-session stage (lines 398-405): invoke `OnSessionStarted` first for
a new session; its error aborts the request. -/
def Alexa.startPhase {V E : Type} (alexa : Alexa V E) (env : RequestEnvelope)
    (session1 : Session) (store1 : Store V) : POut V E :=
  if session1.new then
    alexa.startFinish env
      (alexa.requestHandler.onSessionStarted env.request session1 env.context
        defaultResponse store1)
  else
    alexa.dispatchPhase env session1 defaultResponse store1 []

/-- Body of `ProcessRequest` after both validation steps (lines 384-436):
dereference the session (line 386 panics on nil), lazily initialize its
attribute map, then run the callback stages. -/
def Alexa.processAfterChecks {V E : Type} (alexa : Alexa V E) (env : RequestEnvelope)
    (store : Store V) : POut V E :=
  match env.session with
  | none => ⟨.panicked, some env, store, []⟩
  | some session0 =>
    alexa.startPhase env (initSessionStore session0 store).1 (initSessionStore session0 store).2

/-- `ProcessRequest` (lines 364-436). -/
def Alexa.ProcessRequest {V E : Type} (alexa : Alexa V E)
    (requestEnv : Option RequestEnvelope) (parse : String → Option Int) (now tol : Int)
    (store : Store V) : POut V E :=
  match requestEnv with
  | none => ⟨.err .envelopeNil, none, store, []⟩
  | some env =>
    match appCheck alexa env with
    | .err e => ⟨.err e, some env, store, []⟩
    | .panicked => ⟨.panicked, some env, store, []⟩
    | .ok _ =>
      match tsCheck alexa env parse now tol with
      | .err e => ⟨.err e, some env, store, []⟩
      | .panicked => ⟨.panicked, some env, store, []⟩
      | .ok _ => alexa.processAfterChecks env store

/-! ## Convenience accessors and response helpers -/

/-- `GetRequestType` (lines 183-185); `none` models the nil-request panic. -/
def RequestEnvelope.GetRequestType (r : RequestEnvelope) : Option String :=
  r.request.map Request.type

/-- `GetIntentName` (lines 188-194). -/
def RequestEnvelope.GetIntentName (r : RequestEnvelope) : Option String :=
  match r.GetRequestType with
  | none => none
  | some t =>
    if t = "IntentRequest" then r.request.map (fun req => req.intent.name)
    else some t

/-- `SetOutputSpeech` (lines 461-463). -/
def Response.SetOutputSpeech (r : Response) (text : String) : Response :=
  { r with outputSpeech := some { type := "PlainText", text := text } }

/-- `AddAudioPlayer` (lines 494-508). -/
def Response.AddAudioPlayer (r : Response) (playerType playBehavior streamToken url : String)
    (offsetInMilliseconds : Int) : Response :=
  { r with directives := r.directives ++
      [Directive.audioPlayer
        { type := playerType, playBehavior := playBehavior,
          audioItem := some { stream :=
            { token := streamToken, url := url,
              offsetInMilliseconds := offsetInMilliseconds } } }] }

/-- `AddDialogDirective` (lines 510-519). -/
def Response.AddDialogDirective (r : Response) (dialogType slotToElicit slotToConfirm : String)
    (intent : Option Intent) : Response :=
  { r with directives := r.directives ++
      [Directive.dialog
        { type := dialogType, slotToElicit := slotToElicit,
          slotToConfirm := slotToConfirm, updatedIntent := intent }] }

/-! ## Derived observations used by the theorems -/

/-- The attribute-map pointer of the session inside the returned envelope. -/
def POut.finalSessionAttrs {V E : Type} (out : POut V E) : Option Ref :=
  (out.envOut.bind RequestEnvelope.session).bind Session.attributes

/-- The `Response` inside a successfully returned envelope. -/
def POut.responseOf {V E : Type} (out : POut V E) : Option Response :=
  match out.result with
  | .ok envR => envR.response
  | _ => none

/-- The output speech of a successfully returned envelope. -/
def POut.outputSpeechOf {V E : Type} (out : POut V E) : Option OutputSpeech :=
  out.responseOf.bind Response.outputSpeech

/-! ## Directive-appending calls -/

/-- One call to a directive-appending helper, with its arguments
(`AddAudioPlayer` line 495, `AddDialogDirective` line 511). -/
inductive DirCall where
  | audio (playerType playBehavior streamToken url : String) (offsetInMilliseconds : Int)
  | dialog (dialogType slotToElicit slotToConfirm : String) (updatedIntent : Option Intent)

/-- The directive a call appends. -/
def DirCall.directive : DirCall → Directive
  | .audio a b c d e =>
    .audioPlayer
      { type := a, playBehavior := b,
        audioItem := some { stream := { token := c, url := d, offsetInMilliseconds := e } } }
  | .dialog a b c i =>
    .dialog { type := a, slotToElicit := b, slotToConfirm := c, updatedIntent := i }

/-- Execute one directive-appending call on a response. -/
def applyDirCall (r : Response) : DirCall → Response
  | .audio a b c d e => r.AddAudioPlayer a b c d e
  | .dialog a b c i => r.AddDialogDirective a b c i

/-! ## Heap discipline of handlers

A Go callback automatically satisfies the following, because Go maps are
garbage collected (never freed under a live pointer), always have pairwise
distinct keys, and a map-typed field can only hold a pointer to a live map:
the heap keeps every well-formed map well formed, and the session's
attribute-map pointer stays a valid heap address. In this embedding a
callback is an arbitrary function on the heap, so the discipline is an
explicit hypothesis. -/

/-- The Go-automatic heap discipline for one callback. -/
def Callback.Tame {V E : Type} (cb : Callback V E) : Prop :=
  ∀ req s ctx resp st,
    (StoreWF st → StoreWF (cb req s ctx resp st).store)
    ∧ ((∀ r, s.attributes = some r → r < st.length) →
        ∀ r, (cb req s ctx resp st).session.attributes = some r →
          r < (cb req s ctx resp st).store.length)

/-- The callback never resets the session's attribute-map pointer to nil
(Go callbacks can do this via `session.Attributes = nil`; this predicate
rules it out). -/
def Callback.KeepsAttrs {V E : Type} (cb : Callback V E) : Prop :=
  ∀ req s ctx resp st, s.attributes.isSome = true →
    ((cb req s ctx resp st).session.attributes).isSome = true

/-- Heap discipline for all four callbacks of a handler. -/
def RequestHandler.Tame {V E : Type} (h : RequestHandler V E) : Prop :=
  Callback.Tame h.onSessionStarted ∧ Callback.Tame h.onLaunch
    ∧ Callback.Tame h.onIntent ∧ Callback.Tame h.onSessionEnded

/-- No callback of the handler resets the attribute-map pointer to nil. -/
def RequestHandler.KeepsAttrs {V E : Type} (h : RequestHandler V E) : Prop :=
  Callback.KeepsAttrs h.onSessionStarted ∧ Callback.KeepsAttrs h.onLaunch
    ∧ Callback.KeepsAttrs h.onIntent ∧ Callback.KeepsAttrs h.onSessionEnded

/-- The copy postcondition of a successful run `out` returning `respEnv`:
the session still points at an attribute map, the output envelope points at
an attribute map, the two pointers differ (the output map is a fresh object,
not an alias), and the two maps have equal contents. -/
def GoodCopyOut {V E : Type} (out : POut V E) (respEnv : ResponseEnvelope) : Prop :=
  (POut.finalSessionAttrs out).isSome = true
  ∧ respEnv.sessionAttributes.isSome = true
  ∧ respEnv.sessionAttributes ≠ POut.finalSessionAttrs out
  ∧ readMapO out.store respEnv.sessionAttributes
    = readMapO out.store (POut.finalSessionAttrs out)

/-! ## Concrete handlers and envelopes used in counterexamples and witnesses -/

/-- A callback that returns no error and mutates nothing. -/
def idCallback : Callback String String := fun _ s _ r st => ⟨none, s, r, st⟩

/-- A handler whose four callbacks all mutate nothing. -/
def idHandler : RequestHandler String String := ⟨idCallback, idCallback, idCallback, idCallback⟩

/-- A callback that fails with the error `"boom"`. -/
def boomCallback : Callback String String := fun _ s _ r st => ⟨some "boom", s, r, st⟩

/-- A handler whose `OnSessionStarted` fails with `"boom"`. -/
def boomStartHandler : RequestHandler String String :=
  ⟨boomCallback, idCallback, idCallback, idCallback⟩

/-- A callback that sets output speech on the shared response and succeeds. -/
def speakCallback : Callback String String := fun _ s _ r st => ⟨none, s, r.SetOutputSpeech "hello", st⟩

/-- A handler whose `OnSessionStarted` sets output speech. -/
def speakStartHandler : RequestHandler String String :=
  ⟨speakCallback, idCallback, idCallback, idCallback⟩

/-- A callback that resets the session's attribute map pointer to nil
(Go: `session.Attributes = nil`). -/
def nilAttrsCallback : Callback String String :=
  fun _ s _ r st => ⟨none, { s with attributes := none }, r, st⟩

/-- A handler whose `OnLaunch` nils out the session attribute map. -/
def nilAttrsLaunchHandler : RequestHandler String String :=
  ⟨idCallback, nilAttrsCallback, idCallback, idCallback⟩

/-- A parse function granting timestamp `"T"` the value `t` nanoseconds. -/
def parseT (t : Int) : String → Option Int := fun s => if s = "T" then some t else none

/-! ## Basic lemmas about the heap and attribute maps -/

theorem readMap_append_self {V : Type} (st : Store V) (m : AttrMap V) :
    readMap (st ++ [m]) st.length = m := by
  simp [readMap, List.getD]

theorem readMap_append_of_lt {V : Type} (st : Store V) (m : AttrMap V) (r : Ref)
    (h : r < st.length) : readMap (st ++ [m]) r = readMap st r := by
  induction st generalizing r with
  | nil => simp at h
  | cons a t ih =>
    cases r with
    | zero => rfl
    | succ r =>
      have := ih r (by simpa using Nat.lt_of_succ_lt_succ h)
      simpa [readMap, List.getD] using this

theorem readMap_wf {V : Type} (st : Store V) (r : Ref) (hst : StoreWF st)
    (h : r < st.length) : AttrMap.WF (readMap st r) := by
  have hmem : st.getD r [] ∈ st := by
    have hg : st.getD r [] = st[r] := List.getD_eq_getElem st [] h
    rw [hg]
    exact List.getElem_mem h
  exact hst _ hmem

theorem AttrMap.insert_of_not_hasKey {V : Type} (m : AttrMap V) (k : String) (v : V)
    (h : m.hasKey k = false) : m.insert k v = m ++ [(k, v)] := by
  simp [AttrMap.insert, h]

theorem AttrMap.hasKey_eq_false_of_not_mem {V : Type} (m : AttrMap V) (k : String)
    (h : k ∉ AttrMap.keys m) : m.hasKey k = false := by
  simpa [AttrMap.hasKey] using h

theorem AttrMap.keys_append {V : Type} (m m2 : AttrMap V) :
    AttrMap.keys (m ++ m2) = AttrMap.keys m ++ AttrMap.keys m2 := by
  simp [AttrMap.keys]

/-- The copy loop over a map with pairwise-distinct keys reproduces the map. -/
theorem AttrMap.foldl_insert_eq_append {V : Type} (m acc : AttrMap V)
    (h : (AttrMap.keys (acc ++ m)).Nodup) :
    m.foldl (fun a p => AttrMap.insert a p.1 p.2) acc = acc ++ m := by
  induction m generalizing acc with
  | nil => simp
  | cons p m ih =>
    have hkeys : AttrMap.keys (acc ++ p :: m) =
        AttrMap.keys acc ++ p.1 :: AttrMap.keys m := by
      simp [AttrMap.keys]
    rw [hkeys] at h
    have hnotmem : p.1 ∉ AttrMap.keys acc := by
      rcases List.nodup_append.mp h with ⟨-, -, hdisj⟩
      intro hmem
      exact hdisj hmem (List.mem_cons_self _ _)
    have hins : AttrMap.insert acc p.1 p.2 = acc ++ [p] := by
      have hrw := AttrMap.insert_of_not_hasKey acc p.1 p.2
        (AttrMap.hasKey_eq_false_of_not_mem acc p.1 hnotmem)
      simpa using hrw
    have hnodup : (AttrMap.keys ((acc ++ [p]) ++ m)).Nodup := by
      have hl : (acc ++ [p]) ++ m = acc ++ p :: m := by simp
      rw [hl, hkeys]
      exact h
    calc (p :: m).foldl (fun a q => AttrMap.insert a q.1 q.2) acc
        = m.foldl (fun a q => AttrMap.insert a q.1 q.2) (AttrMap.insert acc p.1 p.2) := by
          simp
      _ = m.foldl (fun a q => AttrMap.insert a q.1 q.2) (acc ++ [p]) := by rw [hins]
      _ = (acc ++ [p]) ++ m := ih (acc ++ [p]) hnodup
      _ = acc ++ p :: m := by simp

theorem AttrMap.copy_eq_self {V : Type} (m : AttrMap V) (h : AttrMap.WF m) :
    AttrMap.copy m = m := by
  have hfold := AttrMap.foldl_insert_eq_append m [] (by simpa [AttrMap.WF] using h)
  simpa [AttrMap.copy] using hfold

/-! ## Shape lemmas about the phases of `ProcessRequest` -/

theorem AlexaError.not_identity_of_callback {E : Type} (e : AlexaError E)
    (h : e.isCallbackError = true) : e.isIdentityError = false := by
  cases e <;> simp_all [AlexaError.isCallbackError, AlexaError.isIdentityError]

theorem AlexaError.callback_ne_envelopeNil {E : Type} (e : AlexaError E)
    (h : e.isCallbackError = true) : e ≠ .envelopeNil := by
  cases e <;> simp_all [AlexaError.isCallbackError]

theorem Outcome.failsTolerance_err_callback {E α : Type} (e : AlexaError E)
    (h : e.isCallbackError = true) : (Outcome.err e : Outcome E α).failsTolerance = false := by
  cases e <;> simp_all [AlexaError.isCallbackError, Outcome.failsTolerance]

theorem finishPhase_events {V E : Type} (alexa : Alexa V E) (env : RequestEnvelope)
    (cbo : CallbackOut V E) (evs : List AlexaEvent) :
    (alexa.finishPhase env cbo evs).events = evs := by
  unfold Alexa.finishPhase
  cases cbo.err <;> rfl

theorem finishPhase_err_callback {V E : Type} (alexa : Alexa V E) (env : RequestEnvelope)
    (cbo : CallbackOut V E) (evs : List AlexaEvent) (e : AlexaError E)
    (h : (alexa.finishPhase env cbo evs).result = .err e) : e.isCallbackError = true := by
  unfold Alexa.finishPhase at h
  cases he : cbo.err with
  | none => rw [he] at h; simp at h
  | some e0 =>
    rw [he] at h
    simp only [Outcome.err.injEq] at h
    subst h
    rfl

theorem dispatchPhase_err_callback {V E : Type} (alexa : Alexa V E) (env : RequestEnvelope)
    (session2 : Session) (response2 : Response) (store2 : Store V) (evs : List AlexaEvent)
    (e : AlexaError E)
    (h : (alexa.dispatchPhase env session2 response2 store2 evs).result = .err e) :
    e.isCallbackError = true := by
  unfold Alexa.dispatchPhase at h
  cases henv : env.request with
  | none => rw [henv] at h; simp at h
  | some req =>
    rw [henv] at h
    simp only [] at h
    split at h
    · exact finishPhase_err_callback _ _ _ _ _ h
    · split at h
      · exact finishPhase_err_callback _ _ _ _ _ h
      · split at h
        · exact finishPhase_err_callback _ _ _ _ _ h
        · exact finishPhase_err_callback _ _ _ _ _ h

theorem startFinish_err_callback {V E : Type} (alexa : Alexa V E) (env : RequestEnvelope)
    (o : CallbackOut V E) (e : AlexaError E)
    (h : (alexa.startFinish env o).result = .err e) : e.isCallbackError = true := by
  unfold Alexa.startFinish at h
  cases he : o.err with
  | none => rw [he] at h; exact dispatchPhase_err_callback _ _ _ _ _ _ _ h
  | some e0 =>
    rw [he] at h
    simp only [Outcome.err.injEq] at h
    subst h
    rfl

theorem startPhase_err_callback {V E : Type} (alexa : Alexa V E) (env : RequestEnvelope)
    (session1 : Session) (store1 : Store V) (e : AlexaError E)
    (h : (alexa.startPhase env session1 store1).result = .err e) :
    e.isCallbackError = true := by
  unfold Alexa.startPhase at h
  split at h
  · exact startFinish_err_callback _ _ _ _ h
  · exact dispatchPhase_err_callback _ _ _ _ _ _ _ h

theorem processAfterChecks_err_callback {V E : Type} (alexa : Alexa V E)
    (env : RequestEnvelope) (store : Store V) (e : AlexaError E)
    (h : (alexa.processAfterChecks env store).result = .err e) :
    e.isCallbackError = true := by
  unfold Alexa.processAfterChecks at h
  cases hs : env.session with
  | none => rw [hs] at h; simp at h
  | some s => rw [hs] at h; exact startPhase_err_callback _ _ _ _ _ h

theorem verifyTimestamp_some_err_cases {E : Type} (env : RequestEnvelope)
    (parse : String → Option Int) (now tol : Int) (e : AlexaError E)
    (h : (verifyTimestamp (some env) parse now tol : Outcome E Unit) = .err e) :
    (∃ ts, e = .timestampParse ts) ∨ e = .timestampTolerance := by
  simp only [verifyTimestamp] at h
  split at h
  · simp at h
  · split at h
    · simp only [Outcome.err.injEq] at h
      exact Or.inl ⟨_, h.symm⟩
    · split at h
      · simp only [Outcome.err.injEq] at h
        exact Or.inr h.symm
      · simp at h

theorem tsCheck_err_cases {V E : Type} (alexa : Alexa V E) (env : RequestEnvelope)
    (parse : String → Option Int) (now tol : Int) (e : AlexaError E)
    (h : tsCheck alexa env parse now tol = .err e) :
    (∃ ts, e = .timestampParse ts) ∨ e = .timestampTolerance := by
  unfold tsCheck at h
  split at h
  · simp at h
  · exact verifyTimestamp_some_err_cases _ _ _ _ _ h

theorem tsCheck_err_not_identity {V E : Type} (alexa : Alexa V E) (env : RequestEnvelope)
    (parse : String → Option Int) (now tol : Int) (e : AlexaError E)
    (h : tsCheck alexa env parse now tol = .err e) : e.isIdentityError = false := by
  rcases tsCheck_err_cases _ _ _ _ _ _ h with ⟨ts, rfl⟩ | rfl <;> rfl

theorem tsCheck_err_ne_envelopeNil {V E : Type} (alexa : Alexa V E) (env : RequestEnvelope)
    (parse : String → Option Int) (now tol : Int) (e : AlexaError E)
    (h : tsCheck alexa env parse now tol = .err e) : e ≠ .envelopeNil := by
  rcases tsCheck_err_cases _ _ _ _ _ _ h with ⟨ts, rfl⟩ | rfl <;> simp

theorem verifyApplicationID_some_err_identity {V E : Type} (alexa : Alexa V E)
    (env : RequestEnvelope) (e : AlexaError E)
    (h : alexa.verifyApplicationID (some env) = .err e) : e.isIdentityError = true := by
  simp only [Alexa.verifyApplicationID] at h
  cases hs : env.session with
  | none => rw [hs] at h; simp at h
  | some s =>
    rw [hs] at h
    simp only [] at h
    split at h
    · simp only [Outcome.err.injEq] at h; subst h; rfl
    · split at h
      · simp only [Outcome.err.injEq] at h; subst h; rfl
      · split at h
        · simp only [Outcome.err.injEq] at h; subst h; rfl
        · simp at h

theorem appCheck_err_identity {V E : Type} (alexa : Alexa V E) (env : RequestEnvelope)
    (e : AlexaError E) (h : appCheck alexa env = .err e) : e.isIdentityError = true := by
  unfold appCheck at h
  split at h
  · simp at h
  · exact verifyApplicationID_some_err_identity _ _ _ h

theorem AlexaError.identity_ne_envelopeNil {E : Type} (e : AlexaError E)
    (h : e.isIdentityError = true) : e ≠ .envelopeNil := by
  cases e <;> simp_all [AlexaError.isIdentityError]

theorem processAfterChecks_not_identity {V E : Type} (alexa : Alexa V E)
    (env : RequestEnvelope) (store : Store V) :
    (alexa.processAfterChecks env store).result.failsIdentity = false := by
  cases hres : (alexa.processAfterChecks env store).result with
  | ok a => rfl
  | panicked => rfl
  | err e =>
    have hcb := processAfterChecks_err_callback _ _ _ _ hres
    simp [Outcome.failsIdentity, AlexaError.not_identity_of_callback e hcb]

theorem processAfterChecks_not_tolerance {V E : Type} (alexa : Alexa V E)
    (env : RequestEnvelope) (store : Store V) :
    (alexa.processAfterChecks env store).result.failsTolerance = false := by
  cases hres : (alexa.processAfterChecks env store).result with
  | ok a => rfl
  | panicked => rfl
  | err e =>
    have hcb := processAfterChecks_err_callback _ _ _ _ hres
    exact Outcome.failsTolerance_err_callback e hcb

theorem processAfterChecks_ne_envelopeNil {V E : Type} (alexa : Alexa V E)
    (env : RequestEnvelope) (store : Store V) :
    (alexa.processAfterChecks env store).result ≠ .err .envelopeNil := by
  intro h
  have hcb := processAfterChecks_err_callback _ _ _ _ h
  simp [AlexaError.isCallbackError] at hcb

theorem dispatchPhase_events_shape {V E : Type} (alexa : Alexa V E) (env : RequestEnvelope)
    (req : Request) (session2 : Session) (response2 : Response) (store2 : Store V)
    (evs : List AlexaEvent) (hreq : env.request = some req) :
    ∃ tail, (alexa.dispatchPhase env session2 response2 store2 evs).events = evs ++ tail
      ∧ AlexaEvent.onSessionStarted ∉ tail := by
  unfold Alexa.dispatchPhase
  rw [hreq]
  simp only []
  split
  · exact ⟨[AlexaEvent.onLaunch], finishPhase_events _ _ _ _, by simp⟩
  · split
    · exact ⟨[AlexaEvent.onIntent], finishPhase_events _ _ _ _, by simp⟩
    · split
      · exact ⟨[AlexaEvent.onSessionEnded], finishPhase_events _ _ _ _, by simp⟩
      · exact ⟨[], by simpa using finishPhase_events _ _ _ _, by simp⟩

theorem initSessionStore_new {V : Type} (s : Session) (st : Store V) :
    (initSessionStore s st).1.new = s.new := by
  unfold initSessionStore
  cases s.attributes <;> rfl

theorem dispatchPhase_some {V E : Type} (alexa : Alexa V E) (env : RequestEnvelope)
    (req : Request) (session2 : Session) (response2 : Response) (store2 : Store V)
    (evs : List AlexaEvent) (hreq : env.request = some req) :
    alexa.dispatchPhase env session2 response2 store2 evs
      = if req.type = launchRequestName then
          alexa.finishPhase env
            (alexa.requestHandler.onLaunch (some req) session2 env.context response2 store2)
            (evs ++ [AlexaEvent.onLaunch])
        else if req.type = intentRequestName then
          alexa.finishPhase env
            (alexa.requestHandler.onIntent (some req) session2 env.context response2 store2)
            (evs ++ [AlexaEvent.onIntent])
        else if req.type = sessionEndedRequestName then
          alexa.finishPhase env
            (alexa.requestHandler.onSessionEnded (some req) session2 env.context response2
              store2)
            (evs ++ [AlexaEvent.onSessionEnded])
        else alexa.finishPhase env ⟨none, session2, response2, store2⟩ evs := by
  unfold Alexa.dispatchPhase
  rw [hreq]

/-! ## Claim theorems -/

/-- Claim C9 (confirmed): for every request envelope (whose inner request is
present, as the Go method dereferences it), `GetIntentName` returns the
intent's name when the request type equals `"IntentRequest"`, and the request
type string for every other type. -/
theorem getIntentName_spec (r : RequestEnvelope) (req : Request)
    (h : r.request = some req) :
    r.GetIntentName
      = some (if req.type = "IntentRequest" then req.intent.name else req.type) := by
  by_cases ht : req.type = "IntentRequest" <;>
    simp [RequestEnvelope.GetIntentName, RequestEnvelope.GetRequestType, h, ht]

/-- Witness for C9: a concrete intent request and a concrete non-intent request. -/
theorem getIntentName_spec_witness :
    RequestEnvelope.GetIntentName
        { request := some { type := "IntentRequest", intent := { name := "MyIntent" } } }
      = some "MyIntent"
    ∧ RequestEnvelope.GetIntentName { request := some { type := "SessionEndedRequest" } }
      = some "SessionEndedRequest" := by
  constructor
  · simpa using getIntentName_spec
      { request := some { type := "IntentRequest", intent := { name := "MyIntent" } } } _ rfl
  · simpa using getIntentName_spec { request := some { type := "SessionEndedRequest" } } _ rfl

/-- Claim C8 (confirmed): every sequence of `AddAudioPlayer` /
`AddDialogDirective` calls appends exactly one directive per call to the end
of the response's directive sequence, leaving all previously appended
directives unchanged and in their original order. -/
theorem directives_append_preserve_order (r : Response) (calls : List DirCall) :
    (calls.foldl applyDirCall r).directives
      = r.directives ++ calls.map DirCall.directive := by
  induction calls generalizing r with
  | nil => simp
  | cons c cs ih =>
    have hone : (applyDirCall r c).directives = r.directives ++ [c.directive] := by
      cases c <;> rfl
    simp [List.foldl_cons, ih, hone]

/-- Claim C7 (confirmed): when the timestamp check is enabled and the
timestamp string does not parse, `ProcessRequest` fails with the parse error
and does not panic. -/
theorem timestamp_parse_error {V E : Type} (alexa : Alexa V E) (env : RequestEnvelope)
    (req : Request) (parse : String → Option Int) (now tol : Int) (store : Store V)
    (hA : appCheck alexa env = .ok ()) (hI : alexa.ignoreTimestamp = false)
    (hreq : env.request = some req) (hp : parse req.timestamp = none) :
    (alexa.ProcessRequest (some env) parse now tol store).result
        = .err (.timestampParse req.timestamp)
    ∧ (alexa.ProcessRequest (some env) parse now tol store).result ≠ .panicked := by
  have hts : (tsCheck alexa env parse now tol : Outcome E Unit)
      = .err (.timestampParse req.timestamp) := by
    simp [tsCheck, hI, verifyTimestamp, hreq, hp]
  constructor
  · simp [Alexa.ProcessRequest, hA, hts]
  · simp [Alexa.ProcessRequest, hA, hts]

/-- Witness for C7: a malformed timestamp (nothing parses) with the checks
otherwise satisfied. -/
theorem timestamp_parse_error_witness :
    (Alexa.ProcessRequest { applicationID := "app", requestHandler := idHandler }
        (some { session := some { application := { applicationID := "app" } },
                request := some { timestamp := "not-a-timestamp" } })
        (fun _ => none) 0 150 ([] : Store String)).result
      = .err (.timestampParse "not-a-timestamp") :=
  (timestamp_parse_error { applicationID := "app", requestHandler := idHandler }
    { session := some { application := { applicationID := "app" } },
      request := some { timestamp := "not-a-timestamp" } }
    { timestamp := "not-a-timestamp" } (fun _ => none) 0 150 []
    (by decide) rfl rfl rfl).1

/-- Claim C3 (confirmed): with the identity check enabled (and the session
present, which the Go code dereferences unconditionally), `ProcessRequest`
fails with an application-identity error — returning no response envelope —
if and only if the configured application identifier is empty, the envelope's
session application identifier is empty, or the two differ. -/
theorem identity_check_iff {V E : Type} (alexa : Alexa V E) (env : RequestEnvelope)
    (s : Session) (parse : String → Option Int) (now tol : Int) (store : Store V)
    (hIA : alexa.ignoreApplicationID = false) (hs : env.session = some s) :
    (alexa.ProcessRequest (some env) parse now tol store).result.failsIdentity = true
    ↔ (alexa.applicationID = "" ∨ s.application.applicationID = ""
        ∨ alexa.applicationID ≠ s.application.applicationID) := by
  have hAC : appCheck alexa env = alexa.verifyApplicationID (some env) := by
    simp [appCheck, hIA]
  by_cases h1 : alexa.applicationID = ""
  · have hv : alexa.verifyApplicationID (some env) = (.err .appIDEmpty : Outcome E Unit) := by
      simp [Alexa.verifyApplicationID, hs, h1]
    simp [Alexa.ProcessRequest, hAC, hv, Outcome.failsIdentity, AlexaError.isIdentityError, h1]
  · by_cases h2 : s.application.applicationID = ""
    · have hv : alexa.verifyApplicationID (some env)
          = (.err .requestAppIDEmpty : Outcome E Unit) := by
        simp [Alexa.verifyApplicationID, hs, h1, h2]
      simp [Alexa.ProcessRequest, hAC, hv, Outcome.failsIdentity, AlexaError.isIdentityError, h2]
    · by_cases h3 : alexa.applicationID = s.application.applicationID
      · have hv : alexa.verifyApplicationID (some env) = (.ok () : Outcome E Unit) := by
          simp [Alexa.verifyApplicationID, hs, h1, h2, h3]
        have hrest :
            (alexa.ProcessRequest (some env) parse now tol store).result.failsIdentity
              = false := by
          simp only [Alexa.ProcessRequest, hAC, hv]
          cases hts : (tsCheck alexa env parse now tol : Outcome E Unit) with
          | ok a => exact processAfterChecks_not_identity _ _ _
          | panicked => rfl
          | err e =>
            simpa [Outcome.failsIdentity] using tsCheck_err_not_identity _ _ _ _ _ _ hts
        simp [hrest, h1, h2, h3]
      · have hv : alexa.verifyApplicationID (some env)
            = (.err .appIDMismatch : Outcome E Unit) := by
          simp [Alexa.verifyApplicationID, hs, h1, h2, h3]
        simp [Alexa.ProcessRequest, hAC, hv, Outcome.failsIdentity, AlexaError.isIdentityError, h3]

/-- Witness for C3: a mismatching identifier fails with an identity error, a
matching one does not. -/
theorem identity_check_iff_witness :
    (Alexa.ProcessRequest { applicationID := "app", requestHandler := idHandler }
        (some { session := some { application := { applicationID := "other" } },
                request := some {} })
        (fun _ => none) 0 150 ([] : Store String)).result.failsIdentity = true
    ∧ (Alexa.ProcessRequest { applicationID := "app", requestHandler := idHandler, ignoreTimestamp := true }
        (some { session := some { application := { applicationID := "app" } },
                request := some {} })
        (fun _ => none) 0 150 ([] : Store String)).result.failsIdentity = false := by
  constructor
  · exact (identity_check_iff { applicationID := "app", requestHandler := idHandler }
      { session := some { application := { applicationID := "other" } }, request := some {} }
      { application := { applicationID := "other" } }
      (fun _ => none) 0 150 [] rfl rfl).mpr (by decide)
  · have hiff := identity_check_iff
      { applicationID := "app", requestHandler := idHandler, ignoreTimestamp := true }
      { session := some { application := { applicationID := "app" } }, request := some {} }
      { application := { applicationID := "app" } }
      (fun _ => none) 0 150 ([] : Store String) rfl rfl
    rw [Bool.eq_false_iff]
    intro htrue
    exact absurd (hiff.mp htrue) (by decide)

/-- Claim C4 (confirmed): with the timestamp check enabled, the prior checks
passing, and the timestamp parsing to `t` nanoseconds, `ProcessRequest` fails
with the tolerance error if and only if the absolute difference between `now`
and `t` strictly exceeds the tolerance (`tol` seconds); a difference exactly
equal to the tolerance passes the timestamp check. -/
theorem timestamp_tolerance_iff {V E : Type} (alexa : Alexa V E) (env : RequestEnvelope)
    (req : Request) (parse : String → Option Int) (now tol t : Int) (store : Store V)
    (hA : appCheck alexa env = .ok ()) (hI : alexa.ignoreTimestamp = false)
    (hreq : env.request = some req) (hp : parse req.timestamp = some t) :
    ((alexa.ProcessRequest (some env) parse now tol store).result.failsTolerance = true
      ↔ |now - t| > tol * 1000000000)
    ∧ (|now - t| ≤ tol * 1000000000
        → tsCheck alexa env parse now tol = (.ok () : Outcome E Unit)) := by
  have hvt : (verifyTimestamp (some env) parse now tol : Outcome E Unit)
      = if |now - t| > tol * 1000000000 then .err .timestampTolerance else .ok () := by
    simp [verifyTimestamp, hreq, hp]
  have hts : tsCheck alexa env parse now tol
      = if |now - t| > tol * 1000000000
        then (.err .timestampTolerance : Outcome E Unit) else .ok () := by
    simp [tsCheck, hI, hvt]
  by_cases hc : |now - t| > tol * 1000000000
  · refine ⟨?_, fun hle => absurd hc (not_lt.mpr hle)⟩
    have hts' : tsCheck alexa env parse now tol
        = (.err .timestampTolerance : Outcome E Unit) := by
      rw [hts, if_pos hc]
    simp [Alexa.ProcessRequest, hA, hts', Outcome.failsTolerance, hc]
  · have hts' : tsCheck alexa env parse now tol = (.ok () : Outcome E Unit) := by
      rw [hts, if_neg hc]
    refine ⟨?_, fun _ => hts'⟩
    have hrest :
        (alexa.ProcessRequest (some env) parse now tol store).result.failsTolerance
          = false := by
      simp only [Alexa.ProcessRequest, hA, hts']
      exact processAfterChecks_not_tolerance _ _ _
    simp [hrest, hc]

/-- Witness for C4: at `tol = 150` seconds, a difference of one nanosecond
beyond the tolerance fails; a difference of exactly the tolerance passes. -/
theorem timestamp_tolerance_iff_witness :
    (Alexa.ProcessRequest { applicationID := "app", requestHandler := idHandler }
        (some { session := some { application := { applicationID := "app" } },
                request := some { timestamp := "T" } })
        (parseT 150000000001) 0 150 ([] : Store String)).result.failsTolerance = true
    ∧ tsCheck { applicationID := "app", requestHandler := idHandler }
        { session := some { application := { applicationID := "app" } },
          request := some { timestamp := "T" } }
        (parseT 150000000000) 0 150 = (.ok () : Outcome String Unit) := by
  constructor
  · exact ((timestamp_tolerance_iff { applicationID := "app", requestHandler := idHandler }
      { session := some { application := { applicationID := "app" } },
        request := some { timestamp := "T" } }
      { timestamp := "T" } (parseT 150000000001) 0 150 150000000001 []
      (by decide) rfl rfl (by decide)).1).mpr (by decide)
  · exact (timestamp_tolerance_iff { applicationID := "app", requestHandler := idHandler }
      { session := some { application := { applicationID := "app" } },
        request := some { timestamp := "T" } }
      { timestamp := "T" } (parseT 150000000000) 0 150 150000000000 []
      (by decide) rfl rfl (by decide)).2 (by decide)

/-- Counterexample for C5: an envelope whose `Session` sub-object is absent
makes `ProcessRequest` panic (nil dereference in `verifyApplicationID`); it
does not fail with the nil-envelope error as the claim states. -/
theorem nil_session_panics_counterexample :
    (Alexa.ProcessRequest { applicationID := "app", requestHandler := idHandler }
        (some { session := none, request := some {} })
        (fun _ => none) 0 150 ([] : Store String)).result = .panicked
    ∧ (Alexa.ProcessRequest { applicationID := "app", requestHandler := idHandler }
        (some { session := none, request := some {} })
        (fun _ => none) 0 150 ([] : Store String)).result ≠ .err .envelopeNil := by
  constructor
  · decide
  · decide

/-- Claim C5 (corrected): `ProcessRequest` returns the nil-envelope error
exactly for an absent envelope; for a present envelope the nil-envelope error
is never returned — in particular an absent `Session` with the identity check
enabled causes a panic instead. -/
theorem nil_envelope_error_characterization {V E : Type} (alexa : Alexa V E)
    (parse : String → Option Int) (now tol : Int) (store : Store V) :
    (alexa.ProcessRequest none parse now tol store).result = .err .envelopeNil
    ∧ (∀ env : RequestEnvelope,
        (alexa.ProcessRequest (some env) parse now tol store).result ≠ .err .envelopeNil)
    ∧ (∀ env : RequestEnvelope, env.session = none → alexa.ignoreApplicationID = false →
        (alexa.ProcessRequest (some env) parse now tol store).result = .panicked) := by
  refine ⟨rfl, ?_, ?_⟩
  · intro env hne
    cases hAC : appCheck alexa env with
    | err e0 =>
      have hid := appCheck_err_identity _ _ _ hAC
      have hneq := AlexaError.identity_ne_envelopeNil _ hid
      simp only [Alexa.ProcessRequest, hAC] at hne
      simp only [Outcome.err.injEq] at hne
      exact hneq hne
    | panicked => simp [Alexa.ProcessRequest, hAC] at hne
    | ok a =>
      cases hTC : tsCheck alexa env parse now tol with
      | err e0 =>
        have hneq := tsCheck_err_ne_envelopeNil _ _ _ _ _ _ hTC
        simp only [Alexa.ProcessRequest, hAC, hTC] at hne
        simp only [Outcome.err.injEq] at hne
        exact hneq hne
      | panicked => simp [Alexa.ProcessRequest, hAC, hTC] at hne
      | ok b =>
        have hrest := processAfterChecks_ne_envelopeNil alexa env store
        simp only [Alexa.ProcessRequest, hAC, hTC] at hne
        exact hrest hne
  · intro env hsess hIA
    have hAC : appCheck alexa env = (.panicked : Outcome E Unit) := by
      simp [appCheck, hIA, Alexa.verifyApplicationID, hsess]
    simp [Alexa.ProcessRequest, hAC]

/-- Witness for C5 (corrected): the absent-envelope case and a concrete
absent-session panic. -/
theorem nil_envelope_error_characterization_witness :
    (Alexa.ProcessRequest { applicationID := "app", requestHandler := idHandler }
        (none : Option RequestEnvelope)
        (fun _ => none) 0 150 ([] : Store String)).result = .err .envelopeNil
    ∧ (Alexa.ProcessRequest { applicationID := "app", requestHandler := idHandler }
        (some { session := none })
        (fun _ => none) 0 150 ([] : Store String)).result = .panicked := by
  constructor
  · exact (nil_envelope_error_characterization
      { applicationID := "app", requestHandler := idHandler } (fun _ => none) 0 150 []).1
  · exact (nil_envelope_error_characterization
      { applicationID := "app", requestHandler := idHandler } (fun _ => none) 0 150 []).2.2
      { session := none } rfl rfl

/-- Claim C10 (confirmed): when `ProcessRequest` fails with a validation
error (nil-envelope, identity or timestamp error — anything but a callback
error), the envelope (hence the session and its nil attribute map) is left
unchanged, the heap is unchanged, no lifecycle callback was invoked, and the
outcome is independent of the handler. -/
theorem validation_failure_leaves_state {V E : Type} (alexa : Alexa V E)
    (requestEnv : Option RequestEnvelope) (parse : String → Option Int) (now tol : Int)
    (store : Store V) (e : AlexaError E)
    (he : (alexa.ProcessRequest requestEnv parse now tol store).result = .err e)
    (hv : AlexaError.isCallbackError e = false) :
    (alexa.ProcessRequest requestEnv parse now tol store).envOut = requestEnv
    ∧ (alexa.ProcessRequest requestEnv parse now tol store).store = store
    ∧ (alexa.ProcessRequest requestEnv parse now tol store).events = []
    ∧ ∀ h2 : RequestHandler V E,
        Alexa.ProcessRequest { alexa with requestHandler := h2 } requestEnv parse now tol store
          = alexa.ProcessRequest requestEnv parse now tol store := by
  cases requestEnv with
  | none => exact ⟨rfl, rfl, rfl, fun h2 => rfl⟩
  | some env =>
    have hACsame : ∀ h2 : RequestHandler V E,
        appCheck { alexa with requestHandler := h2 } env = appCheck alexa env := fun _ => rfl
    have hTCsame : ∀ h2 : RequestHandler V E,
        tsCheck { alexa with requestHandler := h2 } env parse now tol
          = tsCheck alexa env parse now tol := fun _ => rfl
    cases hAC : appCheck alexa env with
    | err e0 =>
      refine ⟨?_, ?_, ?_, ?_⟩ <;>
        simp [Alexa.ProcessRequest, hAC, hACsame]
    | panicked => simp [Alexa.ProcessRequest, hAC] at he
    | ok a =>
      cases hTC : tsCheck alexa env parse now tol with
      | err e0 =>
        refine ⟨?_, ?_, ?_, ?_⟩ <;>
          simp [Alexa.ProcessRequest, hAC, hTC, hACsame, hTCsame]
      | panicked => simp [Alexa.ProcessRequest, hAC, hTC] at he
      | ok b =>
        exfalso
        have hres : (alexa.processAfterChecks env store).result = .err e := by
          simpa [Alexa.ProcessRequest, hAC, hTC] using he
        have hcb := processAfterChecks_err_callback _ _ _ _ hres
        rw [hv] at hcb
        exact Bool.false_ne_true hcb

/-- Witness for C10: an identity mismatch leaves the envelope, heap and event
trace untouched, for an arbitrary replacement handler as well. -/
theorem validation_failure_leaves_state_witness :
    (Alexa.ProcessRequest { applicationID := "app", requestHandler := idHandler }
        (some { session := some { application := { applicationID := "other" } },
                request := some {} })
        (fun _ => none) 0 150 ([] : Store String)).envOut
      = some { session := some { application := { applicationID := "other" } },
               request := some {} }
    ∧ (Alexa.ProcessRequest { applicationID := "app", requestHandler := idHandler }
        (some { session := some { application := { applicationID := "other" } },
                request := some {} })
        (fun _ => none) 0 150 ([] : Store String)).events = []
    ∧ Alexa.ProcessRequest { applicationID := "app", requestHandler := boomStartHandler }
        (some { session := some { application := { applicationID := "other" } },
                request := some {} })
        (fun _ => none) 0 150 ([] : Store String)
      = Alexa.ProcessRequest { applicationID := "app", requestHandler := idHandler }
        (some { session := some { application := { applicationID := "other" } },
                request := some {} })
        (fun _ => none) 0 150 ([] : Store String) := by
  have hmain := validation_failure_leaves_state
    { applicationID := "app", requestHandler := idHandler }
    (some { session := some { application := { applicationID := "other" } },
            request := some {} })
    (fun _ => none) 0 150 ([] : Store String) .appIDMismatch (by decide) rfl
  exact ⟨hmain.1, hmain.2.2.1, hmain.2.2.2 boomStartHandler⟩

/-- Claim C2 (confirmed): for every envelope that passes validation and whose
session is new, `OnSessionStarted` is invoked exactly once and before any
type-specific callback; and when `OnSessionStarted` returns an error, the
type-specific callback is not invoked and `ProcessRequest` returns exactly
that error, with no response envelope. -/
theorem sessionStarted_first_and_aborts {V E : Type} (alexa : Alexa V E)
    (env : RequestEnvelope) (s : Session) (req : Request) (parse : String → Option Int)
    (now tol : Int) (store : Store V)
    (hA : appCheck alexa env = .ok ()) (hT : tsCheck alexa env parse now tol = .ok ())
    (hs : env.session = some s) (hreq : env.request = some req) (hnew : s.new = true) :
    (alexa.ProcessRequest (some env) parse now tol store).events.head?
        = some AlexaEvent.onSessionStarted
    ∧ (alexa.ProcessRequest (some env) parse now tol store).events.count
        AlexaEvent.onSessionStarted = 1
    ∧ (∀ e : E,
        (alexa.requestHandler.onSessionStarted env.request (initSessionStore s store).1
            env.context defaultResponse (initSessionStore s store).2).err = some e →
        (alexa.ProcessRequest (some env) parse now tol store).result = .err (.callback e)
        ∧ (alexa.ProcessRequest (some env) parse now tol store).events
            = [AlexaEvent.onSessionStarted]) := by
  have hkey : alexa.ProcessRequest (some env) parse now tol store
      = alexa.startPhase env (initSessionStore s store).1 (initSessionStore s store).2 := by
    simp [Alexa.ProcessRequest, hA, hT, Alexa.processAfterChecks, hs]
  have hnew1 : (initSessionStore s store).1.new = true := by
    rw [initSessionStore_new]; exact hnew
  rw [hkey]
  unfold Alexa.startPhase
  rw [if_pos hnew1]
  cases ho : (alexa.requestHandler.onSessionStarted env.request (initSessionStore s store).1
      env.context defaultResponse (initSessionStore s store).2).err with
  | some e0 =>
    unfold Alexa.startFinish
    rw [ho]
    refine ⟨rfl, rfl, ?_⟩
    intro e he
    have he' : e0 = e := Option.some.inj he
    subst he'
    exact ⟨rfl, rfl⟩
  | none =>
    unfold Alexa.startFinish
    rw [ho]
    obtain ⟨tail, htail, hmem⟩ := dispatchPhase_events_shape alexa env req
      (alexa.requestHandler.onSessionStarted env.request (initSessionStore s store).1
        env.context defaultResponse (initSessionStore s store).2).session
      (alexa.requestHandler.onSessionStarted env.request (initSessionStore s store).1
        env.context defaultResponse (initSessionStore s store).2).response
      (alexa.requestHandler.onSessionStarted env.request (initSessionStore s store).1
        env.context defaultResponse (initSessionStore s store).2).store
      [AlexaEvent.onSessionStarted] hreq
    rw [htail]
    refine ⟨rfl, ?_, ?_⟩
    · rw [List.count_append]
      have hz : tail.count AlexaEvent.onSessionStarted = 0 := List.count_eq_zero.mpr hmem
      rw [hz]
      rfl
    · intro e he
      exact absurd he (by simp)

/-- Witness for C2: a new session whose `OnSessionStarted` fails with
`"boom"` aborts the request with exactly that error, after invoking only
`OnSessionStarted`. -/
theorem sessionStarted_first_and_aborts_witness :
    (Alexa.ProcessRequest { applicationID := "app", requestHandler := boomStartHandler, ignoreApplicationID := true, ignoreTimestamp := true }
        (some { session := some { new := true }, request := some { type := "LaunchRequest" } })
        (fun _ => none) 0 150 ([] : Store String)).result = .err (.callback "boom")
    ∧ (Alexa.ProcessRequest { applicationID := "app", requestHandler := boomStartHandler, ignoreApplicationID := true, ignoreTimestamp := true }
        (some { session := some { new := true }, request := some { type := "LaunchRequest" } })
        (fun _ => none) 0 150 ([] : Store String)).events
      = [AlexaEvent.onSessionStarted] := by
  exact (sessionStarted_first_and_aborts
    { applicationID := "app", requestHandler := boomStartHandler, ignoreApplicationID := true, ignoreTimestamp := true }
    { session := some { new := true }, request := some { type := "LaunchRequest" } }
    { new := true } { type := "LaunchRequest" }
    (fun _ => none) 0 150 [] rfl rfl rfl rfl rfl).2.2 "boom" rfl

/-- Counterexample for C1: an envelope that passes validation (both checks
disabled) with a new session and an unrecognized request type. The claim says
no callback is invoked and the returned response has no output speech, but
`OnSessionStarted` is invoked (the session is new) and it populates the
output speech of the returned envelope. -/
theorem dispatch_default_response_counterexample :
    (Alexa.ProcessRequest { applicationID := "app", requestHandler := speakStartHandler, ignoreApplicationID := true, ignoreTimestamp := true }
        (some { session := some { new := true }, request := some { type := "SomeOtherThing" } })
        (fun _ => none) 0 150 ([] : Store String)).events = [AlexaEvent.onSessionStarted]
    ∧ (Alexa.ProcessRequest { applicationID := "app", requestHandler := speakStartHandler, ignoreApplicationID := true, ignoreTimestamp := true }
        (some { session := some { new := true }, request := some { type := "SomeOtherThing" } })
        (fun _ => none) 0 150 ([] : Store String)).outputSpeechOf
      = some { type := "PlainText", text := "hello" } := by
  constructor
  · decide
  · decide

/-- Claim C1 (corrected): for every envelope that passes validation and whose
session is not new, `ProcessRequest` invokes exactly one type-specific
callback chosen by the request type — `OnLaunch` for `"LaunchRequest"`,
`OnIntent` for `"IntentRequest"`, `OnSessionEnded` for
`"SessionEndedRequest"` — and for any other type invokes no callback and
returns the default response envelope, whose output speech and card are
absent and whose `shouldEndSession` is `true`. -/
theorem dispatch_routing_not_new {V E : Type} (alexa : Alexa V E) (env : RequestEnvelope)
    (s : Session) (req : Request) (parse : String → Option Int) (now tol : Int)
    (store : Store V)
    (hA : appCheck alexa env = .ok ()) (hT : tsCheck alexa env parse now tol = .ok ())
    (hs : env.session = some s) (hreq : env.request = some req) (hnew : s.new = false) :
    (req.type = "LaunchRequest" →
      (alexa.ProcessRequest (some env) parse now tol store).events = [AlexaEvent.onLaunch])
    ∧ (req.type = "IntentRequest" →
      (alexa.ProcessRequest (some env) parse now tol store).events = [AlexaEvent.onIntent])
    ∧ (req.type = "SessionEndedRequest" →
      (alexa.ProcessRequest (some env) parse now tol store).events
        = [AlexaEvent.onSessionEnded])
    ∧ (req.type ≠ "LaunchRequest" → req.type ≠ "IntentRequest" →
        req.type ≠ "SessionEndedRequest" →
      (alexa.ProcessRequest (some env) parse now tol store).events = []
      ∧ (alexa.ProcessRequest (some env) parse now tol store).responseOf
          = some defaultResponse
      ∧ defaultResponse.outputSpeech = none ∧ defaultResponse.card = none
      ∧ defaultResponse.shouldEndSession = true) := by
  have hnew1 : (initSessionStore s store).1.new = false := by
    rw [initSessionStore_new]; exact hnew
  have hkey : alexa.ProcessRequest (some env) parse now tol store
      = alexa.dispatchPhase env (initSessionStore s store).1 defaultResponse
          (initSessionStore s store).2 [] := by
    simp only [Alexa.ProcessRequest, hA, hT, Alexa.processAfterChecks, hs]
    unfold Alexa.startPhase
    rw [hnew1]
    simp
  rw [hkey, dispatchPhase_some _ _ req _ _ _ _ hreq]
  refine ⟨?_, ?_, ?_, ?_⟩
  · intro h
    rw [if_pos (show req.type = launchRequestName from h)]
    simpa using finishPhase_events _ _ _ _
  · intro h
    rw [if_neg (show req.type ≠ launchRequestName by simp [h, launchRequestName]),
        if_pos (show req.type = intentRequestName from h)]
    simpa using finishPhase_events _ _ _ _
  · intro h
    rw [if_neg (show req.type ≠ launchRequestName by simp [h, launchRequestName]),
        if_neg (show req.type ≠ intentRequestName by simp [h, intentRequestName]),
        if_pos (show req.type = sessionEndedRequestName from h)]
    simpa using finishPhase_events _ _ _ _
  · intro h1 h2 h3
    rw [if_neg (show req.type ≠ launchRequestName from h1),
        if_neg (show req.type ≠ intentRequestName from h2),
        if_neg (show req.type ≠ sessionEndedRequestName from h3)]
    exact ⟨rfl, rfl, rfl, rfl, rfl⟩

/-- Witness for C1 (corrected): with the benign handler, a non-new launch
request invokes exactly `OnLaunch`, and a non-new unrecognized request
invokes nothing and returns the default response. -/
theorem dispatch_routing_not_new_witness :
    (Alexa.ProcessRequest { applicationID := "app", requestHandler := idHandler, ignoreApplicationID := true, ignoreTimestamp := true }
        (some { session := some {}, request := some { type := "LaunchRequest" } })
        (fun _ => none) 0 150 ([] : Store String)).events = [AlexaEvent.onLaunch]
    ∧ (Alexa.ProcessRequest { applicationID := "app", requestHandler := idHandler, ignoreApplicationID := true, ignoreTimestamp := true }
        (some { session := some {}, request := some { type := "SomeOtherThing" } })
        (fun _ => none) 0 150 ([] : Store String)).events = []
    ∧ (Alexa.ProcessRequest { applicationID := "app", requestHandler := idHandler, ignoreApplicationID := true, ignoreTimestamp := true }
        (some { session := some {}, request := some { type := "SomeOtherThing" } })
        (fun _ => none) 0 150 ([] : Store String)).responseOf = some defaultResponse := by
  have h1 := (dispatch_routing_not_new
    { applicationID := "app", requestHandler := idHandler, ignoreApplicationID := true, ignoreTimestamp := true }
    { session := some {}, request := some { type := "LaunchRequest" } }
    {} { type := "LaunchRequest" } (fun _ => none) 0 150 []
    rfl rfl rfl rfl rfl).1 rfl
  have h2 := (dispatch_routing_not_new
    { applicationID := "app", requestHandler := idHandler, ignoreApplicationID := true, ignoreTimestamp := true }
    { session := some {}, request := some { type := "SomeOtherThing" } }
    {} { type := "SomeOtherThing" } (fun _ => none) 0 150 []
    rfl rfl rfl rfl rfl).2.2.2 (by decide) (by decide) (by decide)
  exact ⟨h1, h2.1, h2.2.1⟩

theorem StoreWF_append_single {V : Type} (st : Store V) (m : AttrMap V)
    (hst : StoreWF st) (hm : AttrMap.WF m) : StoreWF (st ++ [m]) := by
  intro x hx
  rcases List.mem_append.mp hx with hx | hx
  · exact hst x hx
  · rw [List.mem_singleton.mp hx]
    exact hm

theorem finishPhase_ok_spec {V E : Type} (alexa : Alexa V E) (env : RequestEnvelope)
    (cbo : CallbackOut V E) (evs : List AlexaEvent) (respEnv : ResponseEnvelope)
    (hwf : StoreWF cbo.store)
    (hval : ∀ r, cbo.session.attributes = some r → r < cbo.store.length)
    (hsome : cbo.session.attributes.isSome = true)
    (hok : (alexa.finishPhase env cbo evs).result = .ok respEnv) :
    GoodCopyOut (alexa.finishPhase env cbo evs) respEnv := by
  cases hattr : cbo.session.attributes with
  | none => rw [hattr] at hsome; simp at hsome
  | some r =>
    have hr : r < cbo.store.length := hval r hattr
    cases he : cbo.err with
    | some e =>
      unfold Alexa.finishPhase at hok
      rw [he] at hok
      simp at hok
    | none =>
      have hout : alexa.finishPhase env cbo evs
          = ⟨.ok { version := sdkVersion,
                   sessionAttributes := some cbo.store.length,
                   response := some cbo.response },
             some { env with session := some cbo.session },
             cbo.store ++ [AttrMap.copy (readMapO cbo.store cbo.session.attributes)],
             evs⟩ := by
        unfold Alexa.finishPhase
        rw [he]
        rfl
      have hcopy : AttrMap.copy (readMapO cbo.store (some r)) = readMap cbo.store r :=
        AttrMap.copy_eq_self _ (readMap_wf _ _ hwf hr)
      rw [hattr, hcopy] at hout
      rw [hout] at hok
      simp only [Outcome.ok.injEq] at hok
      subst hok
      refine ⟨?_, ?_, ?_, ?_⟩
      · rw [hout]
        simp [POut.finalSessionAttrs, hattr]
      · rfl
      · rw [hout]
        simp only [POut.finalSessionAttrs]
        simp [hattr]
        exact Nat.ne_of_gt hr
      · rw [hout]
        simp only [POut.finalSessionAttrs]
        simp [hattr, readMapO, readMap_append_self, readMap_append_of_lt _ _ _ hr]

theorem dispatchPhase_ok_spec {V E : Type} (alexa : Alexa V E) (env : RequestEnvelope)
    (req : Request) (session2 : Session) (response2 : Response) (store2 : Store V)
    (evs : List AlexaEvent) (respEnv : ResponseEnvelope)
    (htame : alexa.requestHandler.Tame) (hkeep : alexa.requestHandler.KeepsAttrs)
    (hreq : env.request = some req)
    (hwf : StoreWF store2)
    (hval : ∀ r, session2.attributes = some r → r < store2.length)
    (hsome : session2.attributes.isSome = true)
    (hok : (alexa.dispatchPhase env session2 response2 store2 evs).result = .ok respEnv) :
    GoodCopyOut (alexa.dispatchPhase env session2 response2 store2 evs) respEnv := by
  rw [dispatchPhase_some _ _ req _ _ _ _ hreq] at hok ⊢
  by_cases h1 : req.type = launchRequestName
  · rw [if_pos h1] at hok ⊢
    obtain ⟨hwfp, hvalp⟩ := htame.2.1 (some req) session2 env.context response2 store2
    exact finishPhase_ok_spec _ _ _ _ _ (hwfp hwf) (hvalp hval)
      (hkeep.2.1 (some req) session2 env.context response2 store2 hsome) hok
  · rw [if_neg h1] at hok ⊢
    by_cases h2 : req.type = intentRequestName
    · rw [if_pos h2] at hok ⊢
      obtain ⟨hwfp, hvalp⟩ := htame.2.2.1 (some req) session2 env.context response2 store2
      exact finishPhase_ok_spec _ _ _ _ _ (hwfp hwf) (hvalp hval)
        (hkeep.2.2.1 (some req) session2 env.context response2 store2 hsome) hok
    · rw [if_neg h2] at hok ⊢
      by_cases h3 : req.type = sessionEndedRequestName
      · rw [if_pos h3] at hok ⊢
        obtain ⟨hwfp, hvalp⟩ := htame.2.2.2 (some req) session2 env.context response2 store2
        exact finishPhase_ok_spec _ _ _ _ _ (hwfp hwf) (hvalp hval)
          (hkeep.2.2.2 (some req) session2 env.context response2 store2 hsome) hok
      · rw [if_neg h3] at hok ⊢
        exact finishPhase_ok_spec _ _ _ _ _ hwf hval hsome hok

theorem startPhase_ok_spec {V E : Type} (alexa : Alexa V E) (env : RequestEnvelope)
    (req : Request) (session1 : Session) (store1 : Store V) (respEnv : ResponseEnvelope)
    (htame : alexa.requestHandler.Tame) (hkeep : alexa.requestHandler.KeepsAttrs)
    (hreq : env.request = some req)
    (hwf : StoreWF store1)
    (hval : ∀ r, session1.attributes = some r → r < store1.length)
    (hsome : session1.attributes.isSome = true)
    (hok : (alexa.startPhase env session1 store1).result = .ok respEnv) :
    GoodCopyOut (alexa.startPhase env session1 store1) respEnv := by
  unfold Alexa.startPhase at hok ⊢
  by_cases hnew : session1.new = true
  · rw [if_pos hnew] at hok ⊢
    unfold Alexa.startFinish at hok ⊢
    cases ho : (alexa.requestHandler.onSessionStarted env.request session1 env.context
        defaultResponse store1).err with
    | some e => rw [ho] at hok; simp at hok
    | none =>
      rw [ho] at hok
      obtain ⟨hwfp, hvalp⟩ := htame.1 env.request session1 env.context defaultResponse store1
      exact dispatchPhase_ok_spec _ _ req _ _ _ _ _ htame hkeep hreq (hwfp hwf) (hvalp hval)
        (hkeep.1 env.request session1 env.context defaultResponse store1 hsome) hok
  · rw [if_neg hnew] at hok ⊢
    exact dispatchPhase_ok_spec _ _ req _ _ _ _ _ htame hkeep hreq hwf hval hsome hok

/-- Counterexample for C6: a handler whose `OnLaunch` resets the session
attribute map to nil (`session.Attributes = nil` in Go). `ProcessRequest`
succeeds, yet the session's attribute mapping is nil afterwards, contrary to
the claim. -/
theorem attrs_nil_after_callback_counterexample :
    (Alexa.ProcessRequest { applicationID := "app", requestHandler := nilAttrsLaunchHandler, ignoreApplicationID := true, ignoreTimestamp := true }
        (some { session := some {}, request := some { type := "LaunchRequest" } })
        (fun _ => none) 0 150 ([] : Store String)).result.isOk = true
    ∧ POut.finalSessionAttrs
        (Alexa.ProcessRequest { applicationID := "app", requestHandler := nilAttrsLaunchHandler, ignoreApplicationID := true, ignoreTimestamp := true }
          (some { session := some {}, request := some { type := "LaunchRequest" } })
          (fun _ => none) 0 150 ([] : Store String)) = none := by
  constructor
  · decide
  · decide

/-- Claim C6 (corrected): for every envelope that passes validation with a
nil session attribute mapping, provided the handler's callbacks obey the
heap discipline Go provides automatically (`Tame`) and never reset the
attribute-map pointer to nil (`KeepsAttrs`), a successful `ProcessRequest`
leaves the session with a non-nil attribute mapping, and the output
envelope's session attributes are a distinct map object — not an alias —
holding the same entries. -/
theorem session_attrs_initialized_and_copied {V E : Type} (alexa : Alexa V E)
    (env : RequestEnvelope) (s : Session) (req : Request) (parse : String → Option Int)
    (now tol : Int) (store : Store V) (respEnv : ResponseEnvelope)
    (hA : appCheck alexa env = .ok ()) (hT : tsCheck alexa env parse now tol = .ok ())
    (hs : env.session = some s) (hreq : env.request = some req)
    (hattrs : s.attributes = none) (hwf : StoreWF store)
    (htame : alexa.requestHandler.Tame) (hkeep : alexa.requestHandler.KeepsAttrs)
    (hok : (alexa.ProcessRequest (some env) parse now tol store).result = .ok respEnv) :
    GoodCopyOut (alexa.ProcessRequest (some env) parse now tol store) respEnv := by
  have hkey : alexa.ProcessRequest (some env) parse now tol store
      = alexa.startPhase env (initSessionStore s store).1 (initSessionStore s store).2 := by
    simp [Alexa.ProcessRequest, hA, hT, Alexa.processAfterChecks, hs]
  have hinit1 : (initSessionStore s store).1 = { s with attributes := some store.length } := by
    unfold initSessionStore
    rw [hattrs]
    rfl
  have hinit2 : (initSessionStore s store).2 = store ++ [[]] := by
    unfold initSessionStore
    rw [hattrs]
    rfl
  have hwf1 : StoreWF (initSessionStore s store).2 := by
    rw [hinit2]
    exact StoreWF_append_single _ _ hwf (by simp [AttrMap.WF, AttrMap.keys])
  have hval1 : ∀ r, (initSessionStore s store).1.attributes = some r
      → r < (initSessionStore s store).2.length := by
    rw [hinit1, hinit2]
    intro r hrr
    simp only [Option.some.injEq] at hrr
    subst hrr
    simp
  have hsome1 : (initSessionStore s store).1.attributes.isSome = true := by
    rw [hinit1]
    rfl
  rw [hkey] at hok ⊢
  exact startPhase_ok_spec _ _ req _ _ _ htame hkeep hreq hwf1 hval1 hsome1 hok

/-- Witness for C6 (corrected): the benign handler on a launch request whose
session starts with a nil attribute mapping. -/
theorem session_attrs_initialized_and_copied_witness :
    GoodCopyOut
      (Alexa.ProcessRequest { applicationID := "app", requestHandler := idHandler, ignoreApplicationID := true, ignoreTimestamp := true }
        (some { session := some {}, request := some { type := "LaunchRequest" } })
        (fun _ => none) 0 150 ([] : Store String))
      { version := "1.0", sessionAttributes := some 1, response := some defaultResponse } := by
  have htame : RequestHandler.Tame idHandler := by
    refine ⟨?_, ?_, ?_, ?_⟩ <;> exact fun req s ctx resp st => ⟨fun h => h, fun h => h⟩
  have hkeep : RequestHandler.KeepsAttrs idHandler := by
    refine ⟨?_, ?_, ?_, ?_⟩ <;> exact fun req s ctx resp st h => h
  exact session_attrs_initialized_and_copied
    { applicationID := "app", requestHandler := idHandler, ignoreApplicationID := true, ignoreTimestamp := true }
    { session := some {}, request := some { type := "LaunchRequest" } }
    {} { type := "LaunchRequest" } (fun _ => none) 0 150 []
    { version := "1.0", sessionAttributes := some 1, response := some defaultResponse }
    rfl rfl rfl rfl rfl (by simp [StoreWF]) htame hkeep (by decide)

end AlexaSkillsKit
